import Mathlib

/-
Verification development for the logrus Stackdriver formatter
(formatter.go).  The Go source is shallowly embedded: machine maps
become association lists, the ambient call stack and wall clock become
explicit parameters, and JSON marshalling is modelled as a tree of
JSON values built with the omit-if-empty rules of the Go struct tags.
-/

namespace Stackdriver

/-! ## Log levels and severities (formatter.go lines 17-35) -/

/-- The logrus log levels (sirupsen/logrus).  `traceLevel` is the level
absent from the formatter's `levelsToSeverity` map. -/
inductive LogLevel where
  | traceLevel
  | debugLevel
  | infoLevel
  | warnLevel
  | errorLevel
  | fatalLevel
  | panicLevel
deriving DecidableEq

/-- Go: `type severity string`. -/
abbrev Severity := String

def severityDebug : Severity := "DEBUG"

def severityInfo : Severity := "INFO"

def severityWarning : Severity := "WARNING"

def severityError : Severity := "ERROR"

def severityCritical : Severity := "CRITICAL"

def severityAlert : Severity := "ALERT"

/-- Go: `levelsToSeverity` map; a level absent from the map (TraceLevel)
yields the zero value `""` of the `severity` string type. -/
def levelsToSeverity : LogLevel → Severity
  | .debugLevel => severityDebug
  | .infoLevel => severityInfo
  | .warnLevel => severityWarning
  | .errorLevel => severityError
  | .fatalLevel => severityCritical
  | .panicLevel => severityAlert
  | .traceLevel => ""

/-! ## Known keys (formatter.go lines 37-43) and the logrus error key -/

def KeyTrace : String := "trace"

def KeySpanID : String := "spanID"

def KeyHTTPRequest : String := "httpRequest"

def KeyLogID : String := "logID"

/-- logrus.ErrorKey: the conventional field key used by WithError. -/
def ErrorKey : String := "error"

/-! ## Data structures (formatter.go lines 45-100) -/

/-- Go struct `HTTPRequest` (formatter.go lines 79-92); all fields are
strings with the `omitempty` JSON option. -/
structure HTTPRequest where
  requestMethod : String
  requestUrl : String
  requestSize : String
  status : String
  responseSize : String
  userAgent : String
  remoteIp : String
  serverIp : String
  referer : String
  latency : String
  protocol : String
deriving DecidableEq

/-- Dynamic values stored in a logrus field map (`map[string]interface{}`):
the shapes the formatter's type assertions distinguish (string,
*HTTPRequest, error) plus representative plain scalars. An `err` value
carries the text its `Error()` method returns. -/
inductive Value where
  | str (s : String)
  | num (n : Int)
  | boolean (b : Bool)
  | err (e : String)
  | httpReq (r : HTTPRequest)
deriving DecidableEq

/-- A Go `map[string]interface{}` / `logrus.Fields`, as an association
list (a Go map holds at most one binding per key). -/
abbrev Fields := List (String × Value)

/-- The input logrus entry: level, message and field map. -/
structure LogrusEntry where
  Level : LogLevel
  Message : String
  Data : Fields

/-- Go struct `ServiceContext` (formatter.go lines 46-49). -/
structure ServiceContext where
  service : String
  version : String
deriving DecidableEq

/-- Go struct `ReportLocation` (formatter.go lines 66-70). -/
structure ReportLocation where
  filePath : String
  lineNumber : Int
  functionName : String
deriving DecidableEq

/-- Go struct `Context` (formatter.go lines 73-77); the pointer fields
become options. -/
structure Context where
  data : Fields
  reportLocation : Option ReportLocation
  httpRequest : Option HTTPRequest
deriving DecidableEq

/-- Go struct `Entry` (formatter.go lines 52-63); pointer fields become
options, plain strings keep their zero value `""` when unset. -/
structure Entry where
  logName : String
  timestamp : String
  httpRequest : Option HTTPRequest
  trace : String
  spanId : String
  serviceContext : Option ServiceContext
  message : String
  severity : Severity
  context : Option Context
  sourceLocation : Option ReportLocation
deriving DecidableEq

/-- Go struct `Formatter` (formatter.go lines 95-100). -/
structure Formatter where
  Service : String
  Version : String
  ProjectID : String
  StackSkip : List String

/-! ## Map primitives -/

/-- Lookup in a field map: Go `v, ok := m[k]`. -/
def lookupKey {α : Type} : List (String × α) → String → Option α
  | [], _ => none
  | kv :: rest, k => if kv.1 = k then some kv.2 else lookupKey rest k

/-- Go `delete(m, k)`: removes the binding for `k` (every binding, a Go
map has at most one). -/
def eraseKey {α : Type} : List (String × α) → String → List (String × α)
  | [], _ => []
  | kv :: rest, k => if kv.1 = k then eraseKey rest k else kv :: eraseKey rest k

/-- The value transformation of `replaceErrors` (formatter.go lines
174-187): an error value becomes its `Error()` text, everything else is
kept. -/
def replaceValue : Value → Value
  | .err e => .str e
  | v => v

/-- Go `replaceErrors` (formatter.go lines 174-187): builds a fresh map
whose error values are replaced by their text. -/
def replaceErrors (source : Fields) : Fields :=
  source.map (fun kv => (kv.1, replaceValue kv.2))

/-- Rendering of a dynamic value by `fmt`'s `%s` verb, as used in
`fmt.Sprintf("%s: %s", e.Message, err)` (formatter.go line 245).
On a non-string scalar, Go's `%s` produces the `%!s(type=value)`
notice; on a struct pointer it prints the fields in braces. -/
def Value.sprint : Value → String
  | .str s => s
  | .err e => e
  | .num n => "%!s(int=" ++ toString n ++ ")"
  | .boolean b => "%!s(bool=" ++ (if b then "true" else "false") ++ ")"
  | .httpReq r =>
      "&\x7b" ++ String.intercalate " "
        [r.requestMethod, r.requestUrl, r.requestSize, r.status,
         r.responseSize, r.userAgent, r.remoteIp, r.serverIp,
         r.referer, r.latency, r.protocol] ++ "\x7d"

/-! ## url.QueryEscape (used at formatter.go line 229) -/

/-- UTF-8 bytes of a character, as naturals. -/
def utf8Bytes (c : Char) : List Nat :=
  let n := c.toNat
  if n < 128 then [n]
  else if n < 2048 then [192 + n / 64, 128 + n % 64]
  else if n < 65536 then [224 + n / 4096, 128 + (n / 64) % 64, 128 + n % 64]
  else [240 + n / 262144, 128 + (n / 4096) % 64, 128 + (n / 64) % 64, 128 + n % 64]

/-- Upper-case hexadecimal digit, as used by Go's URL escaping. -/
def hexDigitUpper (n : Nat) : Char :=
  if n < 10 then Char.ofNat (48 + n) else Char.ofNat (55 + n)

/-- Escape of one character under Go's `url.QueryEscape`: alphanumerics
and `-_.~` are kept, space becomes `+`, everything else is
percent-encoded byte by byte with upper-case hex. -/
def queryEscapeChar (c : Char) : String :=
  if c.isAlphanum || c = '-' || c = '_' || c = '.' || c = '~' then
    String.singleton c
  else if c = ' ' then "+"
  else
    String.join ((utf8Bytes c).map
      (fun b => "%" ++ String.mk [hexDigitUpper (b / 16), hexDigitUpper (b % 16)]))

/-- Go `url.QueryEscape`. -/
def queryEscape (s : String) : String :=
  String.join (s.toList.map queryEscapeChar)

/-! ## Vendor-path stripping (formatter.go lines 163-166) -/

/-- The vendoring marker stripped from package paths. -/
def vendorMarker : String := "/vendor/"

/-- Whether the first list begins the second (character match). -/
def leadsWith : List Char → List Char → Bool
  | [], _ => true
  | _ :: _, [] => false
  | p :: ps, c :: cs => p = c && leadsWith ps cs

/-- All character positions of `s` at which `sep` occurs. -/
def occIdxs (sep s : String) : List Nat :=
  (List.range (s.length + 1)).filter (fun i => leadsWith sep.toList (s.toList.drop i))

/-- Go `strings.SplitN(s, sep, 2)` for non-empty `sep`: either the whole
string (no occurrence) or the parts before and after the first
occurrence of `sep`. -/
def goSplitN2 (s sep : String) : List String :=
  match (occIdxs sep s).head? with
  | none => [s]
  | some i => [String.mk (s.toList.take i), String.mk (s.toList.drop (i + sep.length))]

/-- formatter.go lines 165-166:
`parts := strings.SplitN(pkg, "/vendor/", 2); pkg = parts[len(parts)-1]`. -/
def stripVendor (pkg : String) : String :=
  let parts := goSplitN2 pkg vendorMarker
  parts.getLastD pkg

/-- Modelled from the spec's words, for comparison with `stripVendor`:
"keep only the suffix after the last occurrence of a vendor marker". -/
def suffixAfterLastVendor (pkg : String) : String :=
  match (occIdxs vendorMarker pkg).getLast? with
  | none => pkg
  | some i => String.mk (pkg.toList.drop (i + vendorMarker.length))

/-- Modelled from the spec's words, for comparison with `stripVendor`:
the suffix after the first occurrence of the vendor marker. -/
def suffixAfterFirstVendor (pkg : String) : String :=
  match (occIdxs vendorMarker pkg).head? with
  | none => pkg
  | some i => String.mk (pkg.toList.drop (i + vendorMarker.length))

/-! ## The origin resolver (formatter.go lines 146-171)

A `stack.Call` obtained by `stack.Caller(i)` is modelled as an
`Option Frame`: `none` is the zero `stack.Call{}`, whose `MarshalText`
fails with `ErrNoFunc` and whose formatting verbs print the
`%!v(NOFUNC)` notice.  The ambient call stack is an explicit list of
the valid frames; walking past its end reaches the first invalid
frame. -/

/-- One valid call-stack frame: its package path (`%+k`), full file path
(`%+s`), line number (`%d`) and function name (`%n`). -/
structure Frame where
  pkg : String
  file : String
  line : Nat
  fn : String
deriving DecidableEq

/-- The loop of `errorOrigin` from some frame onward (formatter.go lines
157-170).  An exhausted stack (invalid frame, `MarshalText` error)
returns `(stack.Call{}, nil)` — note the `nil` error.  A frame whose
vendor-stripped package is in the skip list is skipped; otherwise the
frame is returned with a `nil` error. -/
def originLoop (f : Formatter) : List Frame → Option Frame × Option String
  | [] => (none, none)
  | c :: rest =>
      if stripVendor c.pkg ∈ f.StackSkip then originLoop f rest
      else (some c, none)

/-- Go `Formatter.errorOrigin`: starts at `stack.Caller(3)`, i.e. the
fourth frame of the ambient stack. -/
def errorOrigin (f : Formatter) (stk : List Frame) : Option Frame × Option String :=
  originLoop f (stk.drop 3)

/-- Go `fmt.Sprintf("%+s", c)` on a `stack.Call` (file path). -/
def callFmtPlusS : Option Frame → String
  | none => "%!s(NOFUNC)"
  | some c => c.file

/-- Go `fmt.Sprintf("%d", c)` on a `stack.Call` (line number). -/
def callFmtD : Option Frame → String
  | none => "%!d(NOFUNC)"
  | some c => toString c.line

/-- Go `fmt.Sprintf("%n", c)` on a `stack.Call` (function name). -/
def callFmtN : Option Frame → String
  | none => "%!n(NOFUNC)"
  | some c => c.fn

/-- The value of a decimal digit character. -/
def digitVal (c : Char) : Option Nat :=
  if c.isDigit then some (c.toNat - 48) else none

/-- Decimal parsing of a character list (none on any non-digit). -/
def parseNatChars : List Char → Nat → Option Nat
  | [], acc => some acc
  | c :: cs, acc =>
      match digitVal c with
      | some d => parseNatChars cs (acc * 10 + d)
      | none => none

/-- Decimal parsing of a string (none when empty or not all digits). -/
def toNatModel (s : String) : Option Nat :=
  match s.toList with
  | [] => none
  | cs => parseNatChars cs 0

/-- Go `strconv.ParseInt(s, 10, 64)` with its error ignored, as at
formatter.go line 253: 0 on a syntax error, the clamped maximum on
range overflow.  (The callers only ever pass unsigned decimals or the
`%!d(NOFUNC)` notice.) -/
def parseInt64 (s : String) : Int :=
  match toNatModel s with
  | none => 0
  | some n => if n ≤ 9223372036854775807 then (n : Int) else 9223372036854775807

/-- The report location built by ToEntry from the origin resolver
(formatter.go lines 252-258): guarded by `err == nil`, which is always
true because `errorOrigin` never returns a non-nil error. -/
def originLocation (f : Formatter) (stk : List Frame) : Option ReportLocation :=
  let r := errorOrigin f stk
  if r.2 = none then
    some ⟨callFmtPlusS r.1, parseInt64 (callFmtD r.1), callFmtN r.1⟩
  else none

/-! ## ToEntry (formatter.go lines 190-265)

Each `if`-block of the Go function becomes a step function taking the
original field map (for the `e.Data[...]` read) and the current
context-data map (for the `delete`), returning the extracted value and
the updated context data. -/

/-- formatter.go lines 205-210: extract a string-typed `trace` field. -/
def stepTrace (orig data : Fields) : String × Fields :=
  match lookupKey orig KeyTrace with
  | some (.str s) => (s, eraseKey data KeyTrace)
  | _ => ("", data)

/-- formatter.go lines 212-217: extract a string-typed `spanID` field. -/
def stepSpan (orig data : Fields) : String × Fields :=
  match lookupKey orig KeySpanID with
  | some (.str s) => (s, eraseKey data KeySpanID)
  | _ => ("", data)

/-- formatter.go lines 219-225: extract an `*HTTPRequest`-typed
`httpRequest` field. -/
def stepHTTP (orig data : Fields) : Option HTTPRequest × Fields :=
  match lookupKey orig KeyHTTPRequest with
  | some (.httpReq r) => (some r, eraseKey data KeyHTTPRequest)
  | _ => (none, data)

/-- formatter.go lines 227-232: extract a string-typed `logID` field
when a project id is configured, building the qualified log name. -/
def stepLogID (f : Formatter) (orig data : Fields) : String × Fields :=
  match lookupKey orig KeyLogID with
  | some v =>
      if f.ProjectID ≠ "" then
        match v with
        | .str s =>
            ("projects/" ++ f.ProjectID ++ "/logs/" ++ queryEscape s,
             eraseKey data KeyLogID)
        | _ => ("", data)
      else ("", data)
  | none => ("", data)

/-- formatter.go lines 244-249: fold a context-data `error` value into
the message. -/
def stepError (msg : String) (data : Fields) : String × Fields :=
  match lookupKey data ErrorKey with
  | some v => (msg ++ ": " ++ v.sprint, eraseKey data ErrorKey)
  | none => (msg, data)

/-- Whether the mapped severity takes the error branch of the switch at
formatter.go line 238. -/
def isErrorSeverity (sev : Severity) : Prop :=
  sev = severityError ∨ sev = severityCritical ∨ sev = severityAlert

instance (sev : Severity) : Decidable (isErrorSeverity sev) := by
  unfold isErrorSeverity; infer_instance

/-- Go `Formatter.ToEntry` (formatter.go lines 190-265).  The ambient
call stack `stk`, the formatted wall-clock time `now` and the global
`skipTimestamp` flag are explicit parameters. -/
def ToEntry (f : Formatter) (e : LogrusEntry) (stk : List Frame)
    (now : String) (skipTimestamp : Bool) : Entry :=
  let severity := levelsToSeverity e.Level
  let data0 := replaceErrors e.Data
  let p1 := stepTrace e.Data data0
  let p2 := stepSpan e.Data p1.2
  let p3 := stepHTTP e.Data p2.2
  let p4 := stepLogID f e.Data p3.2
  let ts := if skipTimestamp then "" else now
  let p5 := if isErrorSeverity severity then stepError e.Message p4.2
            else (e.Message, p4.2)
  let location := if isErrorSeverity severity then originLocation f stk else none
  { logName := p4.1
    timestamp := ts
    httpRequest := p3.1
    trace := p1.1
    spanId := p2.1
    serviceContext := some ⟨f.Service, f.Version⟩
    message := p5.1
    severity := severity
    context := some ⟨p5.2, location, p3.1⟩
    sourceLocation := location }

/-- The context-data map of an output entry (empty when the context
sub-object is absent). -/
def Entry.ctxData (ee : Entry) : Fields :=
  match ee.context with
  | some c => c.data
  | none => []

/-- The nested report location of an output entry. -/
def Entry.ctxReportLoc (ee : Entry) : Option ReportLocation :=
  match ee.context with
  | some c => c.reportLocation
  | none => none

/-- The HTTP-request echo nested in the context of an output entry. -/
def Entry.ctxHTTPRequest (ee : Entry) : Option HTTPRequest :=
  match ee.context with
  | some c => c.httpRequest
  | none => none

/-! ## JSON marshalling (encoding/json with the struct tags of
formatter.go; no arrays occur in this schema) -/

/-- A JSON value of the shapes this schema produces. -/
inductive Json where
  | str (s : String)
  | num (n : Int)
  | boolean (b : Bool)
  | obj (fields : List (String × Json))

/-- Key lookup in a JSON object (none on non-objects). -/
def jlookup : Json → String → Option Json
  | .obj fs, k => lookupKey fs k
  | _, _ => none

/-- One string struct field with `omitempty`: dropped when `""`. -/
def omitStr (k s : String) : List (String × Json) :=
  if s = "" then [] else [(k, .str s)]

/-- One int struct field with `omitempty`: dropped when `0`. -/
def omitInt (k : String) (n : Int) : List (String × Json) :=
  if n = 0 then [] else [(k, .num n)]

/-- One pointer struct field with `omitempty`: dropped only when nil;
a non-nil pointer is marshalled, however empty the pointee. -/
def omitOpt {α : Type} (k : String) (m : α → Json) : Option α → List (String × Json)
  | none => []
  | some a => [(k, m a)]

/-- Marshalling of `HTTPRequest` (all fields string + omitempty). -/
def marshalHTTPRequest (r : HTTPRequest) : Json :=
  .obj (omitStr "requestMethod" r.requestMethod ++ omitStr "requestUrl" r.requestUrl
    ++ omitStr "requestSize" r.requestSize ++ omitStr "status" r.status
    ++ omitStr "responseSize" r.responseSize ++ omitStr "userAgent" r.userAgent
    ++ omitStr "remoteIp" r.remoteIp ++ omitStr "serverIp" r.serverIp
    ++ omitStr "referer" r.referer ++ omitStr "latency" r.latency
    ++ omitStr "protocol" r.protocol)

/-- Marshalling of `ServiceContext`. -/
def marshalServiceContext (sc : ServiceContext) : Json :=
  .obj (omitStr "service" sc.service ++ omitStr "version" sc.version)

/-- Marshalling of `ReportLocation`. -/
def marshalReportLocation (l : ReportLocation) : Json :=
  .obj (omitStr "filePath" l.filePath ++ omitInt "lineNumber" l.lineNumber
    ++ omitStr "functionName" l.functionName)

/-- Marshalling of a dynamic map value.  A bare error value would
marshal as an empty object (no exported fields); `replaceErrors` has
already turned errors into strings before marshalling. -/
def marshalValue : Value → Json
  | .str s => .str s
  | .num n => .num n
  | .boolean b => .boolean b
  | .err _ => .obj []
  | .httpReq r => marshalHTTPRequest r

/-- Insertion into a key-ordered member list (`compare` on strings). -/
def insertByKey (kv : String × Json) : List (String × Json) → List (String × Json)
  | [] => [kv]
  | x :: xs =>
      if compare kv.1 x.1 = Ordering.gt then x :: insertByKey kv xs
      else kv :: x :: xs

/-- encoding/json writes map entries in ascending key order. -/
def sortByKey (l : List (String × Json)) : List (String × Json) :=
  l.foldr insertByKey []

/-- Marshalling of the free-form data map (`map[string]interface{}`). -/
def marshalData (fs : Fields) : Json :=
  .obj (sortByKey (fs.map (fun kv => (kv.1, marshalValue kv.2))))

/-- Marshalling of `Context`: the map field has `omitempty` (dropped
when empty), the pointer fields are dropped when nil. -/
def marshalContext (c : Context) : Json :=
  .obj ((if c.data = [] then [] else [("data", marshalData c.data)])
    ++ omitOpt "reportLocation" marshalReportLocation c.reportLocation
    ++ omitOpt "httpRequest" marshalHTTPRequest c.httpRequest)

/-- Marshalling of `Entry`, in the struct's field order (formatter.go
lines 52-63). -/
def marshalEntry (ee : Entry) : Json :=
  .obj (omitStr "logName" ee.logName ++ omitStr "timestamp" ee.timestamp
    ++ omitOpt "httpRequest" marshalHTTPRequest ee.httpRequest
    ++ omitStr "trace" ee.trace ++ omitStr "spanId" ee.spanId
    ++ omitOpt "serviceContext" marshalServiceContext ee.serviceContext
    ++ omitStr "message" ee.message ++ omitStr "severity" ee.severity
    ++ omitOpt "context" marshalContext ee.context
    ++ omitOpt "sourceLocation" marshalReportLocation ee.sourceLocation)

/-- Lower-case hexadecimal digit (Go's JSON encoder uses lower case). -/
def hexDigitLower (n : Nat) : Char :=
  if n < 10 then Char.ofNat (48 + n) else Char.ofNat (87 + n)

/-- Escape of one character in a JSON string, per Go's encoder:
quote, backslash, the common control escapes, `\u00xx` for other
control characters, HTML-safe escapes for angle brackets and ampersand,
and the U+2028/U+2029 escapes. -/
def escapeJSONChar (c : Char) : String :=
  if c = '"' then "\\\""
  else if c = '\\' then "\\\\"
  else if c = '\n' then "\\n"
  else if c = '\r' then "\\r"
  else if c = '\t' then "\\t"
  else if c.toNat < 32 then
    "\\u00" ++ String.mk [hexDigitLower (c.toNat / 16), hexDigitLower (c.toNat % 16)]
  else if c = '<' then "\\u003c"
  else if c = '>' then "\\u003e"
  else if c = '&' then "\\u0026"
  else if c.toNat = 8232 then "\\u2028"
  else if c.toNat = 8233 then "\\u2029"
  else String.singleton c

/-- JSON string-body escaping. -/
def escapeJSONString (s : String) : String :=
  String.join (s.toList.map escapeJSONChar)

mutual

/-- Serialization of a JSON value to text. -/
def renderJson : Json → String
  | .str s => "\"" ++ escapeJSONString s ++ "\""
  | .num n => toString n
  | .boolean b => if b then "true" else "false"
  | .obj fs => "\x7b" ++ renderMembers fs ++ "\x7d"

/-- Serialization of object members, comma-separated. -/
def renderMembers : List (String × Json) → String
  | [] => ""
  | [kv] => "\"" ++ escapeJSONString kv.1 ++ "\":" ++ renderJson kv.2
  | kv :: rest =>
      "\"" ++ escapeJSONString kv.1 ++ "\":" ++ renderJson kv.2 ++ ","
        ++ renderMembers rest

end

/-- Go `Formatter.Format` (formatter.go lines 268-277): marshal the
entry and append a newline.  (Marshalling of this schema cannot fail,
so the error return is always nil and elided.) -/
def Format (f : Formatter) (e : LogrusEntry) (stk : List Frame)
    (now : String) (skipTimestamp : Bool) : String :=
  renderJson (marshalEntry (ToEntry f e stk now skipTimestamp)) ++ "\n"

/-! ## Reference-level model of ToEntry (for the frame effect on the
caller's map)

Go maps are reference values: `delete(ee.Context.Data, k)` mutates the
map object `ee.Context.Data` refers to.  To state that the caller's
`e.Data` is never mutated, map objects live in an explicit heap of
`Fields` cells and `replaceErrors` allocates a fresh cell (its Go body
starts with `make`).  Every map read and write of `ToEntry` goes
through the heap. -/

/-- A heap of map objects; a reference is an index. -/
abbrev Heap := List Fields

/-- Dereference (an invalid reference reads as an empty map). -/
def hget (h : Heap) (r : Nat) : Fields :=
  (h.get? r).getD []

/-- Store into a map cell. -/
def hset (h : Heap) (r : Nat) (m : Fields) : Heap :=
  h.set r m

/-- Allocate a fresh map object. -/
def halloc (h : Heap) (m : Fields) : Heap × Nat :=
  (h ++ [m], h.length)

/-- Go `delete(m, k)` on the map object at `r`. -/
def delCtx (h : Heap) (r : Nat) (k : String) : Heap :=
  hset h r (eraseKey (hget h r) k)

/-- formatter.go lines 205-210, against the heap: the read is from the
caller's map at `dr`, the delete hits the context-data map at `cr`. -/
def stepTraceRef (dr cr : Nat) (h : Heap) : String × Heap :=
  match lookupKey (hget h dr) KeyTrace with
  | some (.str s) => (s, delCtx h cr KeyTrace)
  | _ => ("", h)

/-- formatter.go lines 212-217, against the heap. -/
def stepSpanRef (dr cr : Nat) (h : Heap) : String × Heap :=
  match lookupKey (hget h dr) KeySpanID with
  | some (.str s) => (s, delCtx h cr KeySpanID)
  | _ => ("", h)

/-- formatter.go lines 219-225, against the heap. -/
def stepHTTPRef (dr cr : Nat) (h : Heap) : Option HTTPRequest × Heap :=
  match lookupKey (hget h dr) KeyHTTPRequest with
  | some (.httpReq r) => (some r, delCtx h cr KeyHTTPRequest)
  | _ => (none, h)

/-- formatter.go lines 227-232, against the heap. -/
def stepLogIDRef (f : Formatter) (dr cr : Nat) (h : Heap) : String × Heap :=
  match lookupKey (hget h dr) KeyLogID with
  | some v =>
      if f.ProjectID ≠ "" then
        match v with
        | .str s =>
            ("projects/" ++ f.ProjectID ++ "/logs/" ++ queryEscape s,
             delCtx h cr KeyLogID)
        | _ => ("", h)
      else ("", h)
  | none => ("", h)

/-- formatter.go lines 244-249, against the heap: both the read and the
delete are on the context-data map at `cr`. -/
def stepErrorRef (msg : String) (cr : Nat) (h : Heap) : String × Heap :=
  match lookupKey (hget h cr) ErrorKey with
  | some v => (msg ++ ": " ++ v.sprint, delCtx h cr ErrorKey)
  | none => (msg, h)

/-- Go `Formatter.ToEntry` against the heap: the caller's field map is the
object at `dataRef`; `replaceErrors` allocates the fresh context-data
object; all deletes target the fresh object. -/
def ToEntryRef (f : Formatter) (level : LogLevel) (msg : String) (dataRef : Nat)
    (stk : List Frame) (now : String) (skipTimestamp : Bool) (h0 : Heap) :
    Entry × Heap :=
  let severity := levelsToSeverity level
  let ar := halloc h0 (replaceErrors (hget h0 dataRef))
  let h1 := ar.1
  let cr := ar.2
  let q1 := stepTraceRef dataRef cr h1
  let q2 := stepSpanRef dataRef cr q1.2
  let q3 := stepHTTPRef dataRef cr q2.2
  let q4 := stepLogIDRef f dataRef cr q3.2
  let ts := if skipTimestamp then "" else now
  let q5 := if isErrorSeverity severity then stepErrorRef msg cr q4.2
            else (msg, q4.2)
  let location := if isErrorSeverity severity then originLocation f stk else none
  ({ logName := q4.1
     timestamp := ts
     httpRequest := q3.1
     trace := q1.1
     spanId := q2.1
     serviceContext := some ⟨f.Service, f.Version⟩
     message := q5.1
     severity := severity
     context := some ⟨hget q5.2 cr, location, q3.1⟩
     sourceLocation := location }, q5.2)

/-- Go `Formatter.Format` against the heap: marshal the entry built by
`ToEntryRef` and append a newline; no further map operation. -/
def FormatRef (f : Formatter) (level : LogLevel) (msg : String) (dataRef : Nat)
    (stk : List Frame) (now : String) (skipTimestamp : Bool) (h0 : Heap) :
    String × Heap :=
  let p := ToEntryRef f level msg dataRef stk now skipTimestamp h0
  (renderJson (marshalEntry p.1) ++ "\n", p.2)

/-! ## Lemmas on map primitives -/

@[simp]
lemma lookupKey_nil {α : Type} (k : String) : lookupKey ([] : List (String × α)) k = none := rfl

lemma lookupKey_cons {α : Type} (kv : String × α) (rest : List (String × α)) (k : String) :
    lookupKey (kv :: rest) k = if kv.1 = k then some kv.2 else lookupKey rest k := rfl

lemma lookupKey_eraseKey {α : Type} (l : List (String × α)) (k k' : String) :
    lookupKey (eraseKey l k') k = if k = k' then none else lookupKey l k := by
  induction l with
  | nil => simp [eraseKey]
  | cons kv rest ih =>
      by_cases h1 : kv.1 = k'
      · by_cases h2 : k = k'
        · subst h2
          simp [eraseKey, h1, ih]
        · have h3 : k' ≠ k := fun h => h2 h.symm
          simp [eraseKey, h1, h2, h3, ih, lookupKey_cons]
      · by_cases h3 : kv.1 = k
        · have h2 : ¬ k = k' := fun h => h1 (h3.trans h)
          simp [eraseKey, h1, h3, h2, lookupKey_cons]
        · simp [eraseKey, h1, h3, ih, lookupKey_cons]

lemma lookupKey_replaceErrors (l : Fields) (k : String) :
    lookupKey (replaceErrors l) k = (lookupKey l k).map replaceValue := by
  induction l with
  | nil => simp [replaceErrors]
  | cons kv rest ih =>
      by_cases h : kv.1 = k <;> simp_all [replaceErrors, lookupKey_cons]

/-! ## Lemmas on the extraction steps -/

lemma stepTrace_lookup_ne (orig data : Fields) (k : String) (hk : k ≠ KeyTrace) :
    lookupKey (stepTrace orig data).2 k = lookupKey data k := by
  unfold stepTrace
  repeat' split
  all_goals simp [lookupKey_eraseKey, hk]

lemma stepSpan_lookup_ne (orig data : Fields) (k : String) (hk : k ≠ KeySpanID) :
    lookupKey (stepSpan orig data).2 k = lookupKey data k := by
  unfold stepSpan
  repeat' split
  all_goals simp [lookupKey_eraseKey, hk]

lemma stepHTTP_lookup_ne (orig data : Fields) (k : String) (hk : k ≠ KeyHTTPRequest) :
    lookupKey (stepHTTP orig data).2 k = lookupKey data k := by
  unfold stepHTTP
  repeat' split
  all_goals simp [lookupKey_eraseKey, hk]

lemma stepLogID_lookup_ne (f : Formatter) (orig data : Fields) (k : String)
    (hk : k ≠ KeyLogID) :
    lookupKey (stepLogID f orig data).2 k = lookupKey data k := by
  unfold stepLogID
  repeat' split
  all_goals simp [lookupKey_eraseKey, hk]

lemma stepError_lookup_ne (msg : String) (data : Fields) (k : String)
    (hk : k ≠ ErrorKey) :
    lookupKey (stepError msg data).2 k = lookupKey data k := by
  unfold stepError
  repeat' split
  all_goals simp [lookupKey_eraseKey, hk]

lemma stepTrace_of_str (orig data : Fields) (s : String)
    (h : lookupKey orig KeyTrace = some (.str s)) :
    stepTrace orig data = (s, eraseKey data KeyTrace) := by
  unfold stepTrace
  rw [h]

lemma stepSpan_of_str (orig data : Fields) (s : String)
    (h : lookupKey orig KeySpanID = some (.str s)) :
    stepSpan orig data = (s, eraseKey data KeySpanID) := by
  unfold stepSpan
  rw [h]

lemma stepHTTP_of_req (orig data : Fields) (r : HTTPRequest)
    (h : lookupKey orig KeyHTTPRequest = some (.httpReq r)) :
    stepHTTP orig data = (some r, eraseKey data KeyHTTPRequest) := by
  unfold stepHTTP
  rw [h]

lemma stepLogID_of_str (f : Formatter) (orig data : Fields) (s : String)
    (h : lookupKey orig KeyLogID = some (.str s)) (hp : f.ProjectID ≠ "") :
    stepLogID f orig data =
      ("projects/" ++ f.ProjectID ++ "/logs/" ++ queryEscape s,
       eraseKey data KeyLogID) := by
  unfold stepLogID
  rw [h]
  simp [hp]

lemma stepLogID_of_emptyProject (f : Formatter) (orig data : Fields)
    (hp : f.ProjectID = "") : stepLogID f orig data = ("", data) := by
  unfold stepLogID
  repeat' split
  all_goals simp_all

lemma stepError_of_some (msg : String) (data : Fields) (v : Value)
    (h : lookupKey data ErrorKey = some v) :
    stepError msg data = (msg ++ ": " ++ v.sprint, eraseKey data ErrorKey) := by
  unfold stepError
  rw [h]

lemma stepError_of_none (msg : String) (data : Fields)
    (h : lookupKey data ErrorKey = none) :
    stepError msg data = (msg, data) := by
  unfold stepError
  rw [h]

/-! ## Lemmas on JSON member lookup -/

lemma lookupKey_append {α : Type} (a b : List (String × α)) (k : String) :
    lookupKey (a ++ b) k =
      match lookupKey a k with
      | some v => some v
      | none => lookupKey b k := by
  induction a with
  | nil => simp
  | cons kv rest ih =>
      by_cases h : kv.1 = k <;> simp [lookupKey_cons, h, ih]

lemma lookupKey_omitStr (k' s k : String) :
    lookupKey (omitStr k' s) k =
      if k' = k ∧ s ≠ "" then some (.str s) else none := by
  unfold omitStr
  by_cases hs : s = "" <;> by_cases hk : k' = k <;> simp [hs, hk, lookupKey_cons]

lemma lookupKey_omitInt (k' k : String) (n : Int) :
    lookupKey (omitInt k' n) k =
      if k' = k ∧ n ≠ 0 then some (.num n) else none := by
  unfold omitInt
  by_cases hn : n = 0 <;> by_cases hk : k' = k <;> simp [hn, hk, lookupKey_cons]

lemma lookupKey_omitOpt {α : Type} (k' k : String) (m : α → Json) (ox : Option α) :
    lookupKey (omitOpt k' m ox) k =
      if k' = k then ox.map m else none := by
  cases ox <;> by_cases hk : k' = k <;> simp [omitOpt, hk, lookupKey_cons]

/-! ## Lemmas on the heap model -/

lemma hget_append_left (h : Heap) (m : Fields) (r : Nat) (hr : r < h.length) :
    hget (h ++ [m]) r = hget h r := by
  simp [hget, List.get?_eq_getElem?, List.getElem?_append_left hr]

lemma hget_delCtx_ne (h : Heap) (r r' : Nat) (k : String) (hne : r' ≠ r) :
    hget (delCtx h r k) r' = hget h r' := by
  simp [delCtx, hget, hset, List.getElem?_set_ne (fun hx => hne hx.symm)]

lemma hget_stepTraceRef_ne (dr cr r : Nat) (h : Heap) (hne : r ≠ cr) :
    hget (stepTraceRef dr cr h).2 r = hget h r := by
  unfold stepTraceRef
  repeat' split
  all_goals simp [hget_delCtx_ne _ _ _ _ hne]

lemma hget_stepSpanRef_ne (dr cr r : Nat) (h : Heap) (hne : r ≠ cr) :
    hget (stepSpanRef dr cr h).2 r = hget h r := by
  unfold stepSpanRef
  repeat' split
  all_goals simp [hget_delCtx_ne _ _ _ _ hne]

lemma hget_stepHTTPRef_ne (dr cr r : Nat) (h : Heap) (hne : r ≠ cr) :
    hget (stepHTTPRef dr cr h).2 r = hget h r := by
  unfold stepHTTPRef
  repeat' split
  all_goals simp [hget_delCtx_ne _ _ _ _ hne]

lemma hget_stepLogIDRef_ne (f : Formatter) (dr cr r : Nat) (h : Heap) (hne : r ≠ cr) :
    hget (stepLogIDRef f dr cr h).2 r = hget h r := by
  unfold stepLogIDRef
  repeat' split
  all_goals simp [hget_delCtx_ne _ _ _ _ hne]

lemma hget_stepErrorRef_ne (msg : String) (cr r : Nat) (h : Heap) (hne : r ≠ cr) :
    hget (stepErrorRef msg cr h).2 r = hget h r := by
  unfold stepErrorRef
  repeat' split
  all_goals simp [hget_delCtx_ne _ _ _ _ hne]

lemma hget_errStepRef_ne (P : Prop) [Decidable P] (msg : String) (cr r : Nat)
    (h : Heap) (hne : r ≠ cr) :
    hget (if P then stepErrorRef msg cr h else (msg, h)).2 r = hget h r := by
  split
  · exact hget_stepErrorRef_ne msg cr r h hne
  · rfl

/-! ## Correspondence between the heap-level and the pure ToEntry -/

lemma hget_append_self (h : Heap) (m : Fields) : hget (h ++ [m]) h.length = m := by
  simp [hget, List.get?_eq_getElem?, List.getElem?_append_right (Nat.le_refl _)]

lemma hget_delCtx_self (h : Heap) (r : Nat) (k : String) :
    hget (delCtx h r k) r = eraseKey (hget h r) k := by
  by_cases hlt : r < h.length
  · simp [delCtx, hget, hset, List.get?_eq_getElem?, List.getElem?_set_self hlt]
  · have hnone : h[r]? = none := List.getElem?_eq_none (Nat.le_of_not_lt hlt)
    simp [delCtx, hget, hset, List.set_eq_of_length_le (Nat.le_of_not_lt hlt),
      List.get?_eq_getElem?, hnone, eraseKey]

lemma stepTraceRef_corr (dr cr : Nat) (h : Heap) :
    (stepTraceRef dr cr h).1 = (stepTrace (hget h dr) (hget h cr)).1 ∧
    hget (stepTraceRef dr cr h).2 cr = (stepTrace (hget h dr) (hget h cr)).2 := by
  unfold stepTraceRef stepTrace
  repeat' split
  all_goals simp_all [hget_delCtx_self]

lemma stepSpanRef_corr (dr cr : Nat) (h : Heap) :
    (stepSpanRef dr cr h).1 = (stepSpan (hget h dr) (hget h cr)).1 ∧
    hget (stepSpanRef dr cr h).2 cr = (stepSpan (hget h dr) (hget h cr)).2 := by
  unfold stepSpanRef stepSpan
  repeat' split
  all_goals simp_all [hget_delCtx_self]

lemma stepHTTPRef_corr (dr cr : Nat) (h : Heap) :
    (stepHTTPRef dr cr h).1 = (stepHTTP (hget h dr) (hget h cr)).1 ∧
    hget (stepHTTPRef dr cr h).2 cr = (stepHTTP (hget h dr) (hget h cr)).2 := by
  unfold stepHTTPRef stepHTTP
  repeat' split
  all_goals simp_all [hget_delCtx_self]

lemma stepLogIDRef_corr (f : Formatter) (dr cr : Nat) (h : Heap) :
    (stepLogIDRef f dr cr h).1 = (stepLogID f (hget h dr) (hget h cr)).1 ∧
    hget (stepLogIDRef f dr cr h).2 cr = (stepLogID f (hget h dr) (hget h cr)).2 := by
  unfold stepLogIDRef stepLogID
  repeat' split
  all_goals simp_all [hget_delCtx_self]

lemma stepErrorRef_corr (msg : String) (cr : Nat) (h : Heap) :
    (stepErrorRef msg cr h).1 = (stepError msg (hget h cr)).1 ∧
    hget (stepErrorRef msg cr h).2 cr = (stepError msg (hget h cr)).2 := by
  unfold stepErrorRef stepError
  repeat' split
  all_goals simp_all [hget_delCtx_self]

/-- The heap-level ToEntryRef builds exactly the entry the pure ToEntry
builds from the dereferenced caller map. -/
lemma ToEntryRef_fst (f : Formatter) (level : LogLevel) (msg : String)
    (stk : List Frame) (now : String) (b : Bool) (h0 : Heap) (r : Nat)
    (hr : r < h0.length) :
    (ToEntryRef f level msg r stk now b h0).1 =
      ToEntry f ⟨level, msg, hget h0 r⟩ stk now b := by
  have hne : r ≠ h0.length := Nat.ne_of_lt hr
  simp only [ToEntryRef, ToEntry, halloc]
  have f1d : hget (h0 ++ [replaceErrors (hget h0 r)]) r = hget h0 r :=
    hget_append_left h0 _ r hr
  have f1c : hget (h0 ++ [replaceErrors (hget h0 r)]) h0.length =
      replaceErrors (hget h0 r) :=
    hget_append_self h0 _
  have t1 := stepTraceRef_corr r h0.length (h0 ++ [replaceErrors (hget h0 r)])
  rw [f1d, f1c] at t1
  have d1 : hget (stepTraceRef r h0.length (h0 ++ [replaceErrors (hget h0 r)])).2 r
      = hget h0 r := by
    rw [hget_stepTraceRef_ne _ _ _ _ hne]
    exact f1d
  have t2 := stepSpanRef_corr r h0.length
    (stepTraceRef r h0.length (h0 ++ [replaceErrors (hget h0 r)])).2
  rw [d1, t1.2] at t2
  have d2 : hget (stepSpanRef r h0.length
      (stepTraceRef r h0.length (h0 ++ [replaceErrors (hget h0 r)])).2).2 r
      = hget h0 r := by
    rw [hget_stepSpanRef_ne _ _ _ _ hne]
    exact d1
  have t3 := stepHTTPRef_corr r h0.length
    (stepSpanRef r h0.length
      (stepTraceRef r h0.length (h0 ++ [replaceErrors (hget h0 r)])).2).2
  rw [d2, t2.2] at t3
  have d3 : hget (stepHTTPRef r h0.length
      (stepSpanRef r h0.length
        (stepTraceRef r h0.length (h0 ++ [replaceErrors (hget h0 r)])).2).2).2 r
      = hget h0 r := by
    rw [hget_stepHTTPRef_ne _ _ _ _ hne]
    exact d2
  have t4 := stepLogIDRef_corr f r h0.length
    (stepHTTPRef r h0.length
      (stepSpanRef r h0.length
        (stepTraceRef r h0.length (h0 ++ [replaceErrors (hget h0 r)])).2).2).2
  rw [d3, t3.2] at t4
  have t5 : (if isErrorSeverity (levelsToSeverity level) then
        stepErrorRef msg h0.length
          (stepLogIDRef f r h0.length
            (stepHTTPRef r h0.length
              (stepSpanRef r h0.length
                (stepTraceRef r h0.length (h0 ++ [replaceErrors (hget h0 r)])).2).2).2).2
      else (msg,
        (stepLogIDRef f r h0.length
          (stepHTTPRef r h0.length
            (stepSpanRef r h0.length
              (stepTraceRef r h0.length (h0 ++ [replaceErrors (hget h0 r)])).2).2).2).2)).1
      = (if isErrorSeverity (levelsToSeverity level) then
          stepError msg
            (stepLogID f (hget h0 r)
              (stepHTTP (hget h0 r)
                (stepSpan (hget h0 r)
                  (stepTrace (hget h0 r) (replaceErrors (hget h0 r))).2).2).2).2
        else (msg,
          (stepLogID f (hget h0 r)
            (stepHTTP (hget h0 r)
              (stepSpan (hget h0 r)
                (stepTrace (hget h0 r) (replaceErrors (hget h0 r))).2).2).2).2)).1 ∧
      hget (if isErrorSeverity (levelsToSeverity level) then
        stepErrorRef msg h0.length
          (stepLogIDRef f r h0.length
            (stepHTTPRef r h0.length
              (stepSpanRef r h0.length
                (stepTraceRef r h0.length (h0 ++ [replaceErrors (hget h0 r)])).2).2).2).2
      else (msg,
        (stepLogIDRef f r h0.length
          (stepHTTPRef r h0.length
            (stepSpanRef r h0.length
              (stepTraceRef r h0.length (h0 ++ [replaceErrors (hget h0 r)])).2).2).2).2)).2
        h0.length
      = (if isErrorSeverity (levelsToSeverity level) then
          stepError msg
            (stepLogID f (hget h0 r)
              (stepHTTP (hget h0 r)
                (stepSpan (hget h0 r)
                  (stepTrace (hget h0 r) (replaceErrors (hget h0 r))).2).2).2).2
        else (msg,
          (stepLogID f (hget h0 r)
            (stepHTTP (hget h0 r)
              (stepSpan (hget h0 r)
                (stepTrace (hget h0 r) (replaceErrors (hget h0 r))).2).2).2).2)).2 := by
    by_cases hP : isErrorSeverity (levelsToSeverity level)
    · simp only [if_pos hP]
      have t := stepErrorRef_corr msg h0.length
        (stepLogIDRef f r h0.length
          (stepHTTPRef r h0.length
            (stepSpanRef r h0.length
              (stepTraceRef r h0.length (h0 ++ [replaceErrors (hget h0 r)])).2).2).2).2
      rw [t4.2] at t
      exact t
    · simp only [if_neg hP]
      exact ⟨trivial, t4.2⟩
  rw [t1.1, t2.1, t3.1, t4.1, t5.1, t5.2]

/-- The context-data lookup of a ToEntry result, reduced to the data
map after the four extraction steps, for keys other than the error
key. -/
lemma ctxData_lookup (f : Formatter) (e : LogrusEntry) (stk : List Frame)
    (now : String) (b : Bool) (k : String) (hkerr : k ≠ ErrorKey) :
    lookupKey (ToEntry f e stk now b).ctxData k =
      lookupKey
        (stepLogID f e.Data
          (stepHTTP e.Data (stepSpan e.Data (stepTrace e.Data (replaceErrors e.Data)).2).2).2).2
        k := by
  simp only [ToEntry, Entry.ctxData]
  by_cases hE : isErrorSeverity (levelsToSeverity e.Level)
  · rw [if_pos hE, stepError_lookup_ne _ _ _ hkerr]
  · rw [if_neg hE]

/-- The serialized entry's `context` member, when the context
sub-object is present. -/
lemma jlookup_marshalEntry_context (ee : Entry) (c : Context)
    (h : ee.context = some c) :
    jlookup (marshalEntry ee) "context" = some (marshalContext c) := by
  simp [marshalEntry, jlookup, lookupKey_append, lookupKey_omitStr, lookupKey_omitOpt, h]

/-- The serialized entry's `serviceContext` member, when the service
context is present. -/
lemma jlookup_marshalEntry_serviceContext (ee : Entry) (sc : ServiceContext)
    (h : ee.serviceContext = some sc) :
    jlookup (marshalEntry ee) "serviceContext" = some (marshalServiceContext sc) := by
  simp [marshalEntry, jlookup, lookupKey_append, lookupKey_omitStr, lookupKey_omitOpt, h]

/-! ## Claims -/

/-- C5: for every record whose mapped severity is below ERROR (debug,
info, warning, or the unmapped trace level), the formatted output
contains neither a `sourceLocation` field nor a `context.reportLocation`
field. -/
theorem C5_no_location_below_error (f : Formatter) (e : LogrusEntry)
    (stk : List Frame) (now : String) (b : Bool)
    (h : e.Level = .debugLevel ∨ e.Level = .infoLevel ∨ e.Level = .warnLevel ∨
         e.Level = .traceLevel) :
    (ToEntry f e stk now b).sourceLocation = none ∧
    (ToEntry f e stk now b).ctxReportLoc = none ∧
    jlookup (marshalEntry (ToEntry f e stk now b)) "sourceLocation" = none ∧
    (∀ c, (ToEntry f e stk now b).context = some c →
      jlookup (marshalContext c) "reportLocation" = none) := by
  have hs : ¬ isErrorSeverity (levelsToSeverity e.Level) := by
    rcases h with h | h | h | h <;> rw [h] <;> decide
  have h1 : (ToEntry f e stk now b).sourceLocation = none := by
    simp [ToEntry, hs]
  have h2 : (ToEntry f e stk now b).ctxReportLoc = none := by
    simp [ToEntry, Entry.ctxReportLoc, hs]
  refine ⟨h1, h2, ?_, ?_⟩
  · simp [marshalEntry, jlookup, lookupKey_append, lookupKey_omitStr,
      lookupKey_omitOpt, h1]
  · intro c hc
    have hrl : c.reportLocation = none := by
      have := h2
      rw [Entry.ctxReportLoc, hc] at this
      exact this
    by_cases hd : c.data = [] <;>
      simp [marshalContext, jlookup, lookupKey_append, lookupKey_omitOpt,
        lookupKey_cons, hd, hrl]

/-- C5 witness: a concrete info-level record has no source location and
no nested report location, in the entry and in its serialization. -/
theorem C5_no_location_below_error_witness :
    (ToEntry ⟨"s", "v", "", []⟩ ⟨.infoLevel, "m", [("foo", .str "bar")]⟩ [] "t" true).sourceLocation = none ∧
    (ToEntry ⟨"s", "v", "", []⟩ ⟨.infoLevel, "m", [("foo", .str "bar")]⟩ [] "t" true).ctxReportLoc = none ∧
    jlookup (marshalEntry (ToEntry ⟨"s", "v", "", []⟩ ⟨.infoLevel, "m", [("foo", .str "bar")]⟩ [] "t" true)) "sourceLocation" = none ∧
    jlookup (marshalContext ⟨[("foo", Value.str "bar")], none, none⟩) "reportLocation" = none := by
  have h := C5_no_location_below_error ⟨"s", "v", "", []⟩
    ⟨.infoLevel, "m", [("foo", .str "bar")]⟩ [] "t" true (Or.inr (Or.inl rfl))
  exact ⟨h.1, h.2.1, h.2.2.1, h.2.2.2 ⟨[("foo", Value.str "bar")], none, none⟩ rfl⟩

/-- C1: with an attached error under the conventional error key, an
entry of severity ERROR/CRITICAL/ALERT gets the error text folded into
its message and the error key removed from context data; below ERROR
the error key stays in context data as the error's text and the message
is unchanged. -/
theorem C1_error_folding (f : Formatter) (e : LogrusEntry) (stk : List Frame)
    (now : String) (b : Bool) (et : String)
    (hae : lookupKey e.Data ErrorKey = some (.err et)) :
    (isErrorSeverity (levelsToSeverity e.Level) →
      (ToEntry f e stk now b).message = e.Message ++ ": " ++ et ∧
      lookupKey (ToEntry f e stk now b).ctxData ErrorKey = none) ∧
    (¬ isErrorSeverity (levelsToSeverity e.Level) →
      lookupKey (ToEntry f e stk now b).ctxData ErrorKey = some (.str et) ∧
      (ToEntry f e stk now b).message = e.Message) := by
  have key : lookupKey
      (stepLogID f e.Data
        (stepHTTP e.Data (stepSpan e.Data (stepTrace e.Data (replaceErrors e.Data)).2).2).2).2
      ErrorKey = some (.str et) := by
    rw [stepLogID_lookup_ne _ _ _ _ (by decide), stepHTTP_lookup_ne _ _ _ (by decide),
      stepSpan_lookup_ne _ _ _ (by decide), stepTrace_lookup_ne _ _ _ (by decide),
      lookupKey_replaceErrors, hae]
    rfl
  have hmsg := stepError_of_some e.Message _ (.str et) key
  constructor
  · intro hE
    constructor
    · simp only [ToEntry]
      rw [if_pos hE, hmsg]
      rfl
    · simp only [ToEntry, Entry.ctxData]
      rw [if_pos hE, hmsg]
      simp [lookupKey_eraseKey]
  · intro hNE
    constructor
    · simp only [ToEntry, Entry.ctxData]
      rw [if_neg hNE]
      exact key
    · simp only [ToEntry]
      rw [if_neg hNE]

/-- C1 witness: the two branches at concrete inputs — an error-level
record gets "boom: bad" with the error key removed, an info-level
record keeps the stringified error under the key and its message. -/
theorem C1_error_folding_witness :
    ((ToEntry ⟨"s", "v", "", []⟩ ⟨.errorLevel, "boom", [("error", .err "bad")]⟩ [] "t" true).message
        = "boom" ++ ": " ++ "bad" ∧
      lookupKey (ToEntry ⟨"s", "v", "", []⟩ ⟨.errorLevel, "boom", [("error", .err "bad")]⟩ [] "t" true).ctxData ErrorKey = none) ∧
    (lookupKey (ToEntry ⟨"s", "v", "", []⟩ ⟨.infoLevel, "boom", [("error", .err "bad")]⟩ [] "t" true).ctxData ErrorKey
        = some (.str "bad") ∧
      (ToEntry ⟨"s", "v", "", []⟩ ⟨.infoLevel, "boom", [("error", .err "bad")]⟩ [] "t" true).message = "boom") :=
  ⟨(C1_error_folding ⟨"s", "v", "", []⟩ ⟨.errorLevel, "boom", [("error", .err "bad")]⟩
      [] "t" true "bad" rfl).1 (by decide),
   (C1_error_folding ⟨"s", "v", "", []⟩ ⟨.infoLevel, "boom", [("error", .err "bad")]⟩
      [] "t" true "bad" rfl).2 (by decide)⟩

/-- C2 counterexample: a `trace` field with a non-string value (an
integer) survives into the emitted context data and the dedicated trace
position stays empty, so the recognized keys do not unconditionally
vanish from context data. -/
theorem C2_recognized_keys_counterexample :
    lookupKey
      (ToEntry ⟨"test", "0.1", "", []⟩ ⟨.infoLevel, "m", [("trace", .num 1)]⟩ [] "t" true).ctxData
      KeyTrace = some (.num 1) ∧
    (ToEntry ⟨"test", "0.1", "", []⟩ ⟨.infoLevel, "m", [("trace", .num 1)]⟩ [] "t" true).trace = "" := by
  decide

/-- C2 (amended): when a recognized key holds a value of the recognized
shape (a string for trace/spanID/logID — the latter with a non-empty
project id — and the HTTP-request type for httpRequest), the key is
absent from the emitted context data and its value appears only in the
dedicated output position. -/
theorem C2_recognized_keys_amended (f : Formatter) (e : LogrusEntry)
    (stk : List Frame) (now : String) (b : Bool) :
    (∀ s, lookupKey e.Data KeyTrace = some (.str s) →
      lookupKey (ToEntry f e stk now b).ctxData KeyTrace = none ∧
      (ToEntry f e stk now b).trace = s) ∧
    (∀ s, lookupKey e.Data KeySpanID = some (.str s) →
      lookupKey (ToEntry f e stk now b).ctxData KeySpanID = none ∧
      (ToEntry f e stk now b).spanId = s) ∧
    (∀ r, lookupKey e.Data KeyHTTPRequest = some (.httpReq r) →
      lookupKey (ToEntry f e stk now b).ctxData KeyHTTPRequest = none ∧
      (ToEntry f e stk now b).httpRequest = some r ∧
      (ToEntry f e stk now b).ctxHTTPRequest = some r) ∧
    (∀ s, lookupKey e.Data KeyLogID = some (.str s) → f.ProjectID ≠ "" →
      lookupKey (ToEntry f e stk now b).ctxData KeyLogID = none ∧
      (ToEntry f e stk now b).logName =
        "projects/" ++ f.ProjectID ++ "/logs/" ++ queryEscape s) := by
  refine ⟨?_, ?_, ?_, ?_⟩
  · intro s hs
    have h1 := stepTrace_of_str e.Data (replaceErrors e.Data) s hs
    constructor
    · rw [ctxData_lookup _ _ _ _ _ _ (by decide),
        stepLogID_lookup_ne _ _ _ _ (by decide), stepHTTP_lookup_ne _ _ _ (by decide),
        stepSpan_lookup_ne _ _ _ (by decide), h1]
      simp [lookupKey_eraseKey]
    · simp only [ToEntry]
      rw [h1]
  · intro s hs
    have h2 := stepSpan_of_str e.Data (stepTrace e.Data (replaceErrors e.Data)).2 s hs
    constructor
    · rw [ctxData_lookup _ _ _ _ _ _ (by decide),
        stepLogID_lookup_ne _ _ _ _ (by decide), stepHTTP_lookup_ne _ _ _ (by decide), h2]
      simp [lookupKey_eraseKey]
    · simp only [ToEntry]
      rw [h2]
  · intro r hr
    have h3 := stepHTTP_of_req e.Data
      (stepSpan e.Data (stepTrace e.Data (replaceErrors e.Data)).2).2 r hr
    refine ⟨?_, ?_, ?_⟩
    · rw [ctxData_lookup _ _ _ _ _ _ (by decide),
        stepLogID_lookup_ne _ _ _ _ (by decide), h3]
      simp [lookupKey_eraseKey]
    · simp only [ToEntry]
      rw [h3]
    · simp only [ToEntry, Entry.ctxHTTPRequest]
      rw [h3]
  · intro s hs hp
    have h4 := stepLogID_of_str f e.Data
      (stepHTTP e.Data (stepSpan e.Data (stepTrace e.Data (replaceErrors e.Data)).2).2).2 s hs hp
    constructor
    · rw [ctxData_lookup _ _ _ _ _ _ (by decide), h4]
      simp [lookupKey_eraseKey]
    · simp only [ToEntry]
      rw [h4]

/-- C2 witness: a record carrying all four recognized keys with
recognized shapes, under a formatter with project id "pid": each key is
gone from context data and sits in its dedicated position. -/
theorem C2_recognized_keys_amended_witness :
    (lookupKey (ToEntry ⟨"t", "v", "pid", []⟩
        ⟨.infoLevel, "m",
          [("trace", .str "T"), ("spanID", .str "S"),
           ("httpRequest", .httpReq ⟨"GET", "", "", "", "", "", "", "", "", "", ""⟩),
           ("logID", .str "L")]⟩ [] "t" true).ctxData KeyTrace = none ∧
      (ToEntry ⟨"t", "v", "pid", []⟩
        ⟨.infoLevel, "m",
          [("trace", .str "T"), ("spanID", .str "S"),
           ("httpRequest", .httpReq ⟨"GET", "", "", "", "", "", "", "", "", "", ""⟩),
           ("logID", .str "L")]⟩ [] "t" true).trace = "T") ∧
    (ToEntry ⟨"t", "v", "pid", []⟩
        ⟨.infoLevel, "m",
          [("trace", .str "T"), ("spanID", .str "S"),
           ("httpRequest", .httpReq ⟨"GET", "", "", "", "", "", "", "", "", "", ""⟩),
           ("logID", .str "L")]⟩ [] "t" true).spanId = "S" ∧
    (ToEntry ⟨"t", "v", "pid", []⟩
        ⟨.infoLevel, "m",
          [("trace", .str "T"), ("spanID", .str "S"),
           ("httpRequest", .httpReq ⟨"GET", "", "", "", "", "", "", "", "", "", ""⟩),
           ("logID", .str "L")]⟩ [] "t" true).httpRequest
      = some ⟨"GET", "", "", "", "", "", "", "", "", "", ""⟩ ∧
    (ToEntry ⟨"t", "v", "pid", []⟩
        ⟨.infoLevel, "m",
          [("trace", .str "T"), ("spanID", .str "S"),
           ("httpRequest", .httpReq ⟨"GET", "", "", "", "", "", "", "", "", "", ""⟩),
           ("logID", .str "L")]⟩ [] "t" true).logName
      = "projects/" ++ "pid" ++ "/logs/" ++ queryEscape "L" := by
  have h := C2_recognized_keys_amended ⟨"t", "v", "pid", []⟩
    ⟨.infoLevel, "m",
      [("trace", .str "T"), ("spanID", .str "S"),
       ("httpRequest", .httpReq ⟨"GET", "", "", "", "", "", "", "", "", "", ""⟩),
       ("logID", .str "L")]⟩ [] "t" true
  exact ⟨⟨(h.1 "T" (by decide)).1, (h.1 "T" (by decide)).2⟩,
    (h.2.1 "S" (by decide)).2,
    (h.2.2.1 ⟨"GET", "", "", "", "", "", "", "", "", "", ""⟩ (by decide)).2.1,
    (h.2.2.2 "L" (by decide) (by decide)).2⟩

/-- C6: with a string-valued log-name key, a non-empty project id gives
the fully-qualified log name and removes the key from context data; an
empty project id leaves the key in context data unmodified and sets no
log name. -/
theorem C6_logid_extraction (f : Formatter) (e : LogrusEntry) (stk : List Frame)
    (now : String) (b : Bool) (s : String)
    (h : lookupKey e.Data KeyLogID = some (.str s)) :
    (f.ProjectID ≠ "" →
      (ToEntry f e stk now b).logName =
        "projects/" ++ f.ProjectID ++ "/logs/" ++ queryEscape s ∧
      lookupKey (ToEntry f e stk now b).ctxData KeyLogID = none) ∧
    (f.ProjectID = "" →
      (ToEntry f e stk now b).logName = "" ∧
      lookupKey (ToEntry f e stk now b).ctxData KeyLogID = some (.str s)) := by
  constructor
  · intro hp
    have h4 := stepLogID_of_str f e.Data
      (stepHTTP e.Data (stepSpan e.Data (stepTrace e.Data (replaceErrors e.Data)).2).2).2 s h hp
    constructor
    · simp only [ToEntry]
      rw [h4]
    · rw [ctxData_lookup _ _ _ _ _ _ (by decide), h4]
      simp [lookupKey_eraseKey]
  · intro hp
    have h4 := stepLogID_of_emptyProject f e.Data
      (stepHTTP e.Data (stepSpan e.Data (stepTrace e.Data (replaceErrors e.Data)).2).2).2 hp
    constructor
    · simp only [ToEntry]
      rw [h4]
    · rw [ctxData_lookup _ _ _ _ _ _ (by decide), h4]
      show lookupKey
        (stepHTTP e.Data (stepSpan e.Data (stepTrace e.Data (replaceErrors e.Data)).2).2).2
        KeyLogID = some (.str s)
      rw [stepHTTP_lookup_ne e.Data _ KeyLogID (by decide),
        stepSpan_lookup_ne e.Data _ KeyLogID (by decide),
        stepTrace_lookup_ne e.Data _ KeyLogID (by decide),
        lookupKey_replaceErrors, h]
      rfl

/-- C6 witness: both branches at concrete inputs — project id "pid"
qualifies and removes the key, an empty project id leaves the key and
no log name. -/
theorem C6_logid_extraction_witness :
    ((ToEntry ⟨"t", "v", "pid", []⟩ ⟨.infoLevel, "m", [("logID", .str "L")]⟩ [] "t" true).logName
        = "projects/" ++ "pid" ++ "/logs/" ++ queryEscape "L" ∧
      lookupKey (ToEntry ⟨"t", "v", "pid", []⟩ ⟨.infoLevel, "m", [("logID", .str "L")]⟩ [] "t" true).ctxData KeyLogID = none) ∧
    ((ToEntry ⟨"t", "v", "", []⟩ ⟨.infoLevel, "m", [("logID", .str "L")]⟩ [] "t" true).logName = "" ∧
      lookupKey (ToEntry ⟨"t", "v", "", []⟩ ⟨.infoLevel, "m", [("logID", .str "L")]⟩ [] "t" true).ctxData KeyLogID
        = some (.str "L")) :=
  ⟨(C6_logid_extraction ⟨"t", "v", "pid", []⟩ ⟨.infoLevel, "m", [("logID", .str "L")]⟩
      [] "t" true "L" rfl).1 (by decide),
   (C6_logid_extraction ⟨"t", "v", "", []⟩ ⟨.infoLevel, "m", [("logID", .str "L")]⟩
      [] "t" true "L" rfl).2 rfl⟩

/-- C7 counterexample: with project id "my-project-id" and field
logID="my-id", the output log name is the fully-qualified
"projects/my-project-id/logs/my-id", not "my-id" literally. -/
theorem C7_logname_counterexample :
    (ToEntry ⟨"t", "v", "my-project-id", []⟩ ⟨.infoLevel, "m", [("logID", .str "my-id")]⟩
      [] "t" true).logName = "projects/my-project-id/logs/my-id" ∧
    (ToEntry ⟨"t", "v", "my-project-id", []⟩ ⟨.infoLevel, "m", [("logID", .str "my-id")]⟩
      [] "t" true).logName ≠ "my-id" := by
  decide

/-- C7 (amended): with project id "my-project-id" and field
logID="my-id", the output log name equals
"projects/my-project-id/logs/my-id", independently of the record's
message content (and of its other fields, level and ambient state). -/
theorem C7_logname_amended (level : LogLevel) (msg : String) (data : Fields)
    (stk : List Frame) (now : String) (b : Bool)
    (h : lookupKey data KeyLogID = some (.str "my-id")) :
    (ToEntry ⟨"t", "v", "my-project-id", []⟩ ⟨level, msg, data⟩ stk now b).logName =
      "projects/my-project-id/logs/my-id" := by
  have h4 := stepLogID_of_str ⟨"t", "v", "my-project-id", []⟩ data
    (stepHTTP data (stepSpan data (stepTrace data (replaceErrors data)).2).2).2
    "my-id" h (by decide)
  simp only [ToEntry, h4]
  rfl

/-- C7 witness: the amended statement at two concrete messages: the log
name is the same for both. -/
theorem C7_logname_amended_witness :
    (ToEntry ⟨"t", "v", "my-project-id", []⟩ ⟨.infoLevel, "first message", [("logID", .str "my-id")]⟩
      [] "t" true).logName = "projects/my-project-id/logs/my-id" ∧
    (ToEntry ⟨"t", "v", "my-project-id", []⟩ ⟨.errorLevel, "second message", [("logID", .str "my-id")]⟩
      [] "t" true).logName = "projects/my-project-id/logs/my-id" :=
  ⟨C7_logname_amended .infoLevel "first message" [("logID", .str "my-id")] [] "t" true rfl,
   C7_logname_amended .errorLevel "second message" [("logID", .str "my-id")] [] "t" true rfl⟩

/-- C4 counterexample: a doubly-vendored copy of a skipped package is
not recognized — the resolver returns the frame although the suffix
after the LAST vendor marker is in the skip list, because the code
strips at the FIRST marker only. -/
theorem C4_vendor_counterexample :
    errorOrigin ⟨"s", "v", "", ["github.com/sirupsen/logrus"]⟩
      [⟨"d", "d", 1, "d"⟩, ⟨"d", "d", 1, "d"⟩, ⟨"d", "d", 1, "d"⟩,
       ⟨"app/vendor/foo/vendor/github.com/sirupsen/logrus", "file.go", 10, "F"⟩] =
      (some ⟨"app/vendor/foo/vendor/github.com/sirupsen/logrus", "file.go", 10, "F"⟩, none) ∧
    suffixAfterLastVendor "app/vendor/foo/vendor/github.com/sirupsen/logrus" ∈
      (["github.com/sirupsen/logrus"] : List String) ∧
    stripVendor "app/vendor/foo/vendor/github.com/sirupsen/logrus" ∉
      (["github.com/sirupsen/logrus"] : List String) := by
  decide

/-- C4 (amended): the resolver compares each frame's package path after
keeping only the suffix following the FIRST occurrence of the vendor
marker; for package paths containing at most one marker this coincides
with the suffix after the last occurrence, so singly-vendored copies of
a skipped package are recognized. -/
theorem C4_vendor_amended (f : Formatter) (c : Frame) (rest : List Frame)
    (pkg : String) :
    originLoop f (c :: rest) =
      (if stripVendor c.pkg ∈ f.StackSkip then originLoop f rest
       else (some c, none)) ∧
    stripVendor pkg = suffixAfterFirstVendor pkg ∧
    ((occIdxs vendorMarker pkg).length ≤ 1 →
      stripVendor pkg = suffixAfterLastVendor pkg) := by
  refine ⟨rfl, ?_, ?_⟩
  · unfold stripVendor goSplitN2 suffixAfterFirstVendor
    cases h : (occIdxs vendorMarker pkg).head? <;> simp [h]
  · intro hlen
    unfold stripVendor goSplitN2 suffixAfterLastVendor
    match h : occIdxs vendorMarker pkg with
    | [] => simp
    | [i] => simp
    | i :: j :: t =>
        rw [h] at hlen
        simp at hlen

/-- C4 witness: on a singly-vendored path the stripped suffix agrees
with both the first- and last-occurrence normalizations, and the
resolver's skip test is as described. -/
theorem C4_vendor_amended_witness :
    originLoop ⟨"s", "v", "", ["github.com/sirupsen/logrus"]⟩
        [⟨"x/vendor/github.com/sirupsen/logrus", "f.go", 1, "F"⟩] =
      (if stripVendor "x/vendor/github.com/sirupsen/logrus" ∈
          (["github.com/sirupsen/logrus"] : List String) then
        originLoop ⟨"s", "v", "", ["github.com/sirupsen/logrus"]⟩ []
       else (some ⟨"x/vendor/github.com/sirupsen/logrus", "f.go", 1, "F"⟩, none)) ∧
    stripVendor "x/vendor/github.com/sirupsen/logrus" =
      suffixAfterFirstVendor "x/vendor/github.com/sirupsen/logrus" ∧
    stripVendor "x/vendor/github.com/sirupsen/logrus" =
      suffixAfterLastVendor "x/vendor/github.com/sirupsen/logrus" := by
  have h := C4_vendor_amended ⟨"s", "v", "", ["github.com/sirupsen/logrus"]⟩
    ⟨"x/vendor/github.com/sirupsen/logrus", "f.go", 1, "F"⟩ []
    "x/vendor/github.com/sirupsen/logrus"
  exact ⟨h.1, h.2.1, h.2.2 (by decide)⟩

/-- C3: the code as written violates the claim.  When stack unwinding
is exhausted before a non-skipped frame is found, `errorOrigin` returns
the zero call with a NIL error (formatter.go line 161), so the
`err == nil` guard at line 252 passes and ToEntry fills both
`context.reportLocation` and `sourceLocation` with the `NOFUNC`
formatting notices of the zero call instead of leaving them unset.
Shown here both for an empty remaining stack and for a stack whose only
candidate frame is in the skip list. -/
theorem C3_exhausted_stack_sets_nofunc_location :
    (ToEntry ⟨"s", "v", "", []⟩ ⟨.errorLevel, "boom", []⟩ [] "t" true).sourceLocation =
      some ⟨"%!s(NOFUNC)", 0, "%!n(NOFUNC)"⟩ ∧
    (ToEntry ⟨"s", "v", "", []⟩ ⟨.errorLevel, "boom", []⟩ [] "t" true).ctxReportLoc =
      some ⟨"%!s(NOFUNC)", 0, "%!n(NOFUNC)"⟩ ∧
    (ToEntry ⟨"s", "v", "", ["wrapper/pkg"]⟩ ⟨.errorLevel, "boom", []⟩
        [⟨"d", "d", 1, "d"⟩, ⟨"d", "d", 1, "d"⟩, ⟨"d", "d", 1, "d"⟩,
         ⟨"wrapper/pkg", "w.go", 7, "W"⟩] "t" true).sourceLocation =
      some ⟨"%!s(NOFUNC)", 0, "%!n(NOFUNC)"⟩ ∧
    errorOrigin ⟨"s", "v", "", []⟩ [] = (none, none) := by
  decide

/-- C8: the serialized output always carries the `context` key as a
JSON object, while the sibling optional fields trace, spanId,
httpRequest, logName and sourceLocation are omitted when unset. -/
theorem C8_context_always_present (f : Formatter) (e : LogrusEntry)
    (stk : List Frame) (now : String) (b : Bool) :
    (∃ cf, jlookup (marshalEntry (ToEntry f e stk now b)) "context" = some (.obj cf)) ∧
    ((ToEntry f e stk now b).trace = "" →
      jlookup (marshalEntry (ToEntry f e stk now b)) "trace" = none) ∧
    ((ToEntry f e stk now b).spanId = "" →
      jlookup (marshalEntry (ToEntry f e stk now b)) "spanId" = none) ∧
    ((ToEntry f e stk now b).httpRequest = none →
      jlookup (marshalEntry (ToEntry f e stk now b)) "httpRequest" = none) ∧
    ((ToEntry f e stk now b).logName = "" →
      jlookup (marshalEntry (ToEntry f e stk now b)) "logName" = none) ∧
    ((ToEntry f e stk now b).sourceLocation = none →
      jlookup (marshalEntry (ToEntry f e stk now b)) "sourceLocation" = none) := by
  have hc : ∃ c, (ToEntry f e stk now b).context = some c := ⟨_, rfl⟩
  obtain ⟨c, hc⟩ := hc
  have hj := jlookup_marshalEntry_context _ c hc
  constructor
  · exact ⟨_, hj⟩
  refine ⟨?_, ?_, ?_, ?_, ?_⟩ <;>
    intro h <;>
    simp [marshalEntry, jlookup, lookupKey_append, lookupKey_omitStr, lookupKey_omitOpt, h]

/-- C8 witness: a bare info record with no fields — the serialized
output has `context` mapped to the empty object and none of the
optional sibling keys. -/
theorem C8_context_always_present_witness :
    jlookup (marshalEntry (ToEntry ⟨"s", "v", "", []⟩ ⟨.infoLevel, "msg", []⟩ [] "t" true)) "context"
      = some (.obj []) ∧
    jlookup (marshalEntry (ToEntry ⟨"s", "v", "", []⟩ ⟨.infoLevel, "msg", []⟩ [] "t" true)) "trace" = none ∧
    jlookup (marshalEntry (ToEntry ⟨"s", "v", "", []⟩ ⟨.infoLevel, "msg", []⟩ [] "t" true)) "spanId" = none ∧
    jlookup (marshalEntry (ToEntry ⟨"s", "v", "", []⟩ ⟨.infoLevel, "msg", []⟩ [] "t" true)) "httpRequest" = none ∧
    jlookup (marshalEntry (ToEntry ⟨"s", "v", "", []⟩ ⟨.infoLevel, "msg", []⟩ [] "t" true)) "logName" = none ∧
    jlookup (marshalEntry (ToEntry ⟨"s", "v", "", []⟩ ⟨.infoLevel, "msg", []⟩ [] "t" true)) "sourceLocation" = none := by
  have h := C8_context_always_present ⟨"s", "v", "", []⟩ ⟨.infoLevel, "msg", []⟩ [] "t" true
  exact ⟨rfl, h.2.1 rfl, h.2.2.1 rfl, h.2.2.2.1 rfl, h.2.2.2.2.1 rfl, h.2.2.2.2.2 rfl⟩

/-- C9 counterexample: with service and version both empty, the
serialized output still contains the `serviceContext` key (as the empty
object) — a non-nil pointer is not dropped by omit-if-empty, so the
claimed drop does not happen. -/
theorem C9_serviceContext_counterexample :
    jlookup (marshalEntry (ToEntry ⟨"", "", "", []⟩ ⟨.infoLevel, "m", []⟩ [] "t" true)) "serviceContext"
      = some (.obj []) ∧
    jlookup (marshalEntry (ToEntry ⟨"", "", "", []⟩ ⟨.infoLevel, "m", []⟩ [] "t" true)) "serviceContext"
      ≠ none := by
  have h : jlookup (marshalEntry (ToEntry ⟨"", "", "", []⟩ ⟨.infoLevel, "m", []⟩ [] "t" true)) "serviceContext"
      = some (.obj []) := rfl
  refine ⟨h, ?_⟩
  rw [h]
  simp

/-- C9 (amended): ToEntry sets the service context from the
configuration unconditionally; when both service and version are empty
strings the field is serialized as the empty object `"serviceContext":{}`
(omit-if-empty drops its empty string members but not the non-nil
sub-object itself). -/
theorem C9_serviceContext_amended (f : Formatter) (e : LogrusEntry)
    (stk : List Frame) (now : String) (b : Bool) :
    (ToEntry f e stk now b).serviceContext = some ⟨f.Service, f.Version⟩ ∧
    (f.Service = "" → f.Version = "" →
      jlookup (marshalEntry (ToEntry f e stk now b)) "serviceContext" = some (.obj [])) := by
  refine ⟨rfl, ?_⟩
  intro hs hv
  have hsc : (ToEntry f e stk now b).serviceContext = some ⟨f.Service, f.Version⟩ := rfl
  rw [jlookup_marshalEntry_serviceContext _ _ hsc]
  simp [marshalServiceContext, omitStr, hs, hv]

/-- C9 witness: the amended statement at a concrete formatter with
empty service and version. -/
theorem C9_serviceContext_amended_witness :
    (ToEntry ⟨"", "", "", []⟩ ⟨.infoLevel, "w", []⟩ [] "t" true).serviceContext = some ⟨"", ""⟩ ∧
    jlookup (marshalEntry (ToEntry ⟨"", "", "", []⟩ ⟨.infoLevel, "w", []⟩ [] "t" true)) "serviceContext"
      = some (.obj []) := by
  have h := C9_serviceContext_amended ⟨"", "", "", []⟩ ⟨.infoLevel, "w", []⟩ [] "t" true
  exact ⟨h.1, h.2 rfl rfl⟩

/-- C10: ToEntry and Format never mutate the caller's field map — the
key removals all hit the fresh map object allocated by replaceErrors,
so the map object the caller passed in reads back unchanged from the
heap. -/
theorem C10_caller_map_unchanged (f : Formatter) (level : LogLevel) (msg : String)
    (stk : List Frame) (now : String) (b : Bool) (h0 : Heap) (r : Nat)
    (hr : r < h0.length) :
    hget ((ToEntryRef f level msg r stk now b h0).2) r = hget h0 r ∧
    hget ((FormatRef f level msg r stk now b h0).2) r = hget h0 r := by
  have hne : r ≠ h0.length := Nat.ne_of_lt hr
  have main : hget ((ToEntryRef f level msg r stk now b h0).2) r = hget h0 r := by
    simp only [ToEntryRef, halloc]
    rw [hget_errStepRef_ne _ _ _ _ _ hne, hget_stepLogIDRef_ne _ _ _ _ _ hne,
      hget_stepHTTPRef_ne _ _ _ _ hne, hget_stepSpanRef_ne _ _ _ _ hne,
      hget_stepTraceRef_ne _ _ _ _ hne, hget_append_left _ _ _ hr]
  exact ⟨main, by simpa [FormatRef] using main⟩

/-- C10 witness: a concrete one-cell heap — after ToEntryRef and
FormatRef the caller's map object still holds its binding. -/
theorem C10_caller_map_unchanged_witness :
    hget ((ToEntryRef ⟨"s", "v", "", []⟩ .infoLevel "m" 0 [] "t" true
        [[("foo", Value.str "bar")]]).2) 0 = [("foo", Value.str "bar")] ∧
    hget ((FormatRef ⟨"s", "v", "", []⟩ .infoLevel "m" 0 [] "t" true
        [[("foo", Value.str "bar")]]).2) 0 = [("foo", Value.str "bar")] := by
  have h := C10_caller_map_unchanged ⟨"s", "v", "", []⟩ .infoLevel "m" [] "t" true
    [[("foo", Value.str "bar")]] 0 (by decide)
  exact ⟨h.1.trans rfl, h.2.trans rfl⟩

end Stackdriver
